import Mathlib

/-
Verification development for the bidirectional Twilio audio relay
(ElevenLabs/twilio_service.py, ElevenLabs/main.py, bidirectional.py).
Python byte strings are modelled as List Nat (one entry per byte),
16-bit linear PCM sample streams as List Int, and floats that only ever
hold exact small values (volume factors, millisecond durations) as Rat.
-/

/-- Model of the base64 alphabet value of a character, as used by the
base64 library consumed in handle_twilio_message and output. -/
def b64Val (c : Char) : Option Nat :=
  if 65 ≤ c.toNat ∧ c.toNat ≤ 90 then some (c.toNat - 65)
  else if 97 ≤ c.toNat ∧ c.toNat ≤ 122 then some (c.toNat - 71)
  else if 48 ≤ c.toNat ∧ c.toNat ≤ 57 then some (c.toNat + 4)
  else if c = '+' then some 62
  else if c = '/' then some 63
  else none

/-- Model of the base64 alphabet character for a 6-bit value. -/
def b64CharOf (n : Nat) : Char :=
  if n < 26 then Char.ofNat (65 + n)
  else if n < 52 then Char.ofNat (71 + n)
  else if n < 62 then Char.ofNat (n - 4)
  else if n = 62 then '+'
  else '/'

/-- Model of base64.b64decode: four input characters yield up to three
bytes; a padding character ends the data. -/
def b64decode : List Char → List Nat
  | c1 :: c2 :: c3 :: c4 :: rest =>
    match b64Val c1, b64Val c2 with
    | some v1, some v2 =>
      let b1 := v1 * 4 + v2 / 16
      match b64Val c3 with
      | some v3 =>
        let b2 := (v2 % 16) * 16 + v3 / 4
        match b64Val c4 with
        | some v4 => b1 :: b2 :: ((v3 % 4) * 64 + v4) :: b64decode rest
        | none => [b1, b2]
      | none => [b1]
    | _, _ => []
  | _ => []

/-- Model of base64.b64encode: three input bytes yield four characters,
with padding for a final partial group. -/
def b64encode : List Nat → List Char
  | b1 :: b2 :: b3 :: rest =>
    b64CharOf (b1 % 256 / 4) :: b64CharOf ((b1 % 4) * 16 + b2 % 256 / 16) ::
      b64CharOf ((b2 % 16) * 4 + b3 % 256 / 64) :: b64CharOf (b3 % 64) :: b64encode rest
  | [b1, b2] =>
    [b64CharOf (b1 % 256 / 4), b64CharOf ((b1 % 4) * 16 + b2 % 256 / 16),
      b64CharOf ((b2 % 16) * 4), '=']
  | [b1] => [b64CharOf (b1 % 256 / 4), b64CharOf ((b1 % 4) * 16), '=', '=']
  | [] => []

/-- Model of one sample of audioop.ulaw2lin with width 2 (CPython
st_ulaw2linear16): complement the byte, rebuild the biased mantissa,
shift by the segment, and apply the sign. -/
def ulaw2linSample (u : Nat) : Int :=
  let v := 255 - u % 256
  let t : Int := (((v % 16 : Nat) : Int) * 8 + 132) * 2 ^ (v / 16 % 8)
  if 128 ≤ v then 132 - t else t - 132

/-- Model of audioop.ulaw2lin with width 2 on a whole fragment. -/
def ulaw2lin (bs : List Nat) : List Int := bs.map ulaw2linSample

/-- Model of one sample of audioop.add with width 2: integer addition
clamped to the signed 16-bit range (saturation, no wraparound). -/
def addSatSample (a b : Int) : Int := max (-32768) (min 32767 (a + b))

/-- Model of audioop.add with width 2 on equal-length sample lists. -/
def audioop_add (xs ys : List Int) : List Int := List.zipWith addSatSample xs ys

/-- Segment search of CPython st_14linear2ulaw over seg_uend
(0x3F, 0x7F, 0xFF, 0x1FF, 0x3FF, 0x7FF, 0xFFF, 0x1FFF). -/
def ulawSeg (val : Int) : Nat :=
  if val ≤ 63 then 0
  else if val ≤ 127 then 1
  else if val ≤ 255 then 2
  else if val ≤ 511 then 3
  else if val ≤ 1023 then 4
  else if val ≤ 2047 then 5
  else if val ≤ 4095 then 6
  else if val ≤ 8191 then 7
  else 8

/-- Model of one sample of audioop.lin2ulaw with width 2 (CPython
st_14linear2ulaw applied to the sample arithmetically shifted right by
two): take magnitude, clip to 8159, bias by 33, locate the segment and
assemble the complemented code byte. -/
def lin2ulawSample (s : Int) : Nat :=
  let pcm := Int.fdiv s 4
  let mask : Nat := if pcm < 0 then 127 else 255
  let mag0 := if pcm < 0 then -pcm else pcm
  let mag1 := if 8159 < mag0 then 8159 else mag0
  let biased := mag1 + 33
  let seg := ulawSeg biased
  if 8 ≤ seg then Nat.xor 127 mask
  else Nat.xor (seg * 16 + biased.toNat / 2 ^ (seg + 1) % 16) mask

/-- Model of audioop.lin2ulaw with width 2 on a whole fragment. -/
def lin2ulaw (ss : List Int) : List Nat := ss.map lin2ulawSample

/-- Model of CPython fbound for width 2: clamp above 32767, clamp below
-32767 to -32768, and round towards minus infinity. -/
def fbound (v : Rat) : Int :=
  if 32767 < v then 32767 else if v < -32767 then -32768 else Int.floor v

/-- Model of audioop.mul with width 2: scale every sample by the factor
and bound the result. -/
def audioop_mul (ss : List Int) (factor : Rat) : List Int :=
  ss.map fun s => fbound ((s : Rat) * factor)

/-- TwilioAudioInterface.mix_chunks: decode both mu-law chunks to linear
PCM, add with saturation, re-encode; any audioop error (in particular a
length mismatch in audioop.add) is caught and the background chunk is
returned unchanged. -/
def mix_chunks (bg ai : List Nat) : List Nat :=
  if bg.length = ai.length then lin2ulaw (audioop_add (ulaw2lin bg) (ulaw2lin ai))
  else bg

/-- TwilioAudioInterface._adjust_volume: identity at volume 1.0,
otherwise decode, audioop.mul by the factor, re-encode. -/
def adjust_volume (chunk : List Nat) (volume : Rat) : List Nat :=
  if volume = 1 then chunk else lin2ulaw (audioop_mul (ulaw2lin chunk) volume)

/-- TwilioAudioInterface.chunk_size: 20ms of mu-law audio at 8kHz. -/
def chunk_size : Nat := 160

/-- TwilioAudioInterface.background_volume. -/
def background_volume : Rat := 1 / 2

/-- TwilioAudioInterface._get_background_chunk, written as a function of
the loaded buffer, the current read cursor and the remaining byte count;
it returns the collected chunk together with the cursor after the call.
The source loops while bytes remain, taking a contiguous slice when it
fits and otherwise draining to the end of the buffer and wrapping the
cursor to zero. The source is only ever invoked with a nonempty loaded
buffer and a cursor within bounds; the empty-buffer guard below closes
the same case in which the source would not return. -/
def getBackgroundChunk (noise : List Nat) (pos remaining : Nat) : List Nat × Nat :=
  if _h0 : remaining = 0 then ([], pos)
  else if _h1 : pos + remaining ≤ noise.length then
    ((noise.drop pos).take remaining, pos + remaining)
  else if _h2 : noise.length ≤ pos then
    if _h3 : noise.length = 0 then ([], pos)
    else getBackgroundChunk noise 0 remaining
  else
    (noise.drop pos ++ (getBackgroundChunk noise 0 (remaining - (noise.length - pos))).1,
      (getBackgroundChunk noise 0 (remaining - (noise.length - pos))).2)
termination_by (remaining, pos)
decreasing_by
  · exact Prod.Lex.right remaining (by omega)
  · exact Prod.Lex.left _ _ (by omega)

/-- The buffer read cyclically: byte i of the result is the buffer entry
at index (pos + i) modulo the buffer length. -/
def cyclicTake (noise : List Nat) (pos n : Nat) : List Nat :=
  (List.range n).map fun i => noise.getD ((pos + i) % noise.length) 0

/-- Outbound messages written to the telephony WebSocket by the audio
interface (the JSON media and clear envelopes). -/
inductive OutMsg
  | media (sid : String) (payloadB64 : List Char)
  | clear (sid : String)
deriving DecidableEq

/-- Inbound telephony events dispatched to handle_twilio_message, after
JSON parsing; other covers the event kinds the handler ignores
(connected, mark, malformed). -/
inductive TwilioMessage
  | start (streamSid callSid : String) (customParameters : List (String × String))
  | media (payloadB64 : List Char)
  | stop
  | other
deriving DecidableEq

/-- State of one TwilioAudioInterface, plus the observable history the
claims speak about: sends is everything written to the telephony socket,
forwards is every decoded inbound chunk passed to the input callback,
and mixerFrames is every frame value the mixer loop hands to its
transmission call. wsConnected models
websocket.application_state == WebSocketState.CONNECTED. -/
structure AudioIf where
  inputCallback : Bool
  streamSid : Option String
  callSid : Option String
  customParameters : List (String × String)
  running : Bool
  backgroundNoise : List Nat
  backgroundPos : Nat
  aiAudioQueue : List (List Nat)
  wsConnected : Bool
  sends : List OutMsg
  forwards : List (List Nat)
  mixerFrames : List (List Nat)

/-- TwilioAudioInterface.__init__ (the websocket connection state is the
environment parameter ws). -/
def initState (ws : Bool) : AudioIf :=
  { inputCallback := false, streamSid := none, callSid := none,
    customParameters := [], running := false, backgroundNoise := [],
    backgroundPos := 0, aiAudioQueue := [], wsConnected := ws,
    sends := [], forwards := [], mixerFrames := [] }

/-- TwilioAudioInterface._send_audio_chunk: return immediately when no
streamSid is set; otherwise send one media message with the
base64-encoded payload when the socket is still connected. -/
def sendAudioChunk (s : AudioIf) (audio : List Nat) : AudioIf :=
  match s.streamSid with
  | none => s
  | some sid =>
    if s.wsConnected then { s with sends := s.sends ++ [OutMsg.media sid (b64encode audio)] }
    else s

/-- TwilioAudioInterface._send_clear_message: return immediately when no
streamSid is set; otherwise send one clear message when the socket is
still connected. -/
def sendClearMessage (s : AudioIf) : AudioIf :=
  match s.streamSid with
  | none => s
  | some sid =>
    if s.wsConnected then { s with sends := s.sends ++ [OutMsg.clear sid] }
    else s

/-- TwilioAudioInterface.handle_twilio_message: a start event populates
the stream and call identifiers and sets running; a media event is
decoded and forwarded only when an input callback is registered and
running is set; a stop event clears running; everything else is
ignored. -/
def handleTwilioMessage (s : AudioIf) (m : TwilioMessage) : AudioIf :=
  match m with
  | .start sid cid params =>
    { s with streamSid := some sid, callSid := some cid,
             customParameters := params, running := true }
  | .media p =>
    if s.inputCallback ∧ s.running then { s with forwards := s.forwards ++ [b64decode p] }
    else s
  | .stop => { s with running := false }
  | .other => s

/-- TwilioAudioInterface._get_ai_chunk: get_nowait on the queue, or
none when the queue is empty. -/
def getAiChunk (s : AudioIf) : Option (List Nat) × AudioIf :=
  match s.aiAudioQueue with
  | [] => (none, s)
  | a :: rest => (some a, { s with aiAudioQueue := rest })

/-- The frame the mixer body builds when no agent chunk is mixed in:
the attenuated background chunk when a bed is loaded, else 160 bytes of
the literal mu-law silence byte 0xFF. -/
def bgOnlyFrame (s : AudioIf) : List Nat :=
  if s.backgroundNoise ≠ [] then
    adjust_volume (getBackgroundChunk s.backgroundNoise s.backgroundPos chunk_size).1
      background_volume
  else List.replicate chunk_size 255

/-- One iteration of TwilioAudioInterface._stream_background, guarded by
the loop condition (running and a set streamSid): build the background
or silence chunk, poll the queue non-blockingly, mix only when the
polled chunk is truthy, and hand the frame to the transmission call
(recorded in mixerFrames). -/
def mixerIterate (s : AudioIf) : AudioIf :=
  if s.running ∧ s.streamSid ≠ none then
    let bgPos :=
      if s.backgroundNoise ≠ [] then
        let r := getBackgroundChunk s.backgroundNoise s.backgroundPos chunk_size
        (adjust_volume r.1 background_volume, r.2)
      else (List.replicate chunk_size 255, s.backgroundPos)
    let polled := getAiChunk { s with backgroundPos := bgPos.2 }
    match polled.1 with
    | none => { polled.2 with mixerFrames := polled.2.mixerFrames ++ [bgPos.1] }
    | some ai =>
      if ai.isEmpty then { polled.2 with mixerFrames := polled.2.mixerFrames ++ [bgPos.1] }
      else { polled.2 with mixerFrames := polled.2.mixerFrames ++ [mix_chunks bgPos.1 ai] }
  else s

/-- The operations callers perform on one TwilioAudioInterface:
load_background_noise, start_background_stream, handle_twilio_message,
the AudioInterface start and stop entry points, interrupt, output, and
one mixer-loop iteration. -/
inductive Op
  | loadBackgroundNoise (noise : List Nat)
  | startBackgroundStream
  | handleMsg (m : TwilioMessage)
  | startInput
  | stopInterface
  | interrupt
  | output (audio : List Nat)
  | mixerStep

/-- Effect of one operation on the interface state. interrupt schedules
_send_clear_message and output schedules _send_audio_chunk on the event
loop; both are modelled as running at their scheduling point. -/
def stepOp (s : AudioIf) : Op → AudioIf
  | .loadBackgroundNoise noise => { s with backgroundNoise := noise }
  | .startBackgroundStream => { s with running := true }
  | .handleMsg m => handleTwilioMessage s m
  | .startInput => { s with inputCallback := true }
  | .stopInterface =>
    { s with inputCallback := false, callSid := none, streamSid := none, running := false }
  | .interrupt => sendClearMessage s
  | .output audio => sendAudioChunk s audio
  | .mixerStep => mixerIterate s

/-- Run a list of operations from a state. -/
def runOps (s : AudioIf) : List Op → AudioIf
  | [] => s
  | op :: rest => runOps (stepOp s op) rest

/-- Run a list of telephony messages through handle_twilio_message. -/
def runMsgs (s : AudioIf) : List TwilioMessage → AudioIf
  | [] => s
  | m :: rest => runMsgs (handleTwilioMessage s m) rest

/-- Whether a telephony message is a start event. -/
def isStartMsg : TwilioMessage → Bool
  | .start _ _ _ => true
  | _ => false

/-- Whether an operation processes a telephony start event. -/
def opIsStart : Op → Bool
  | .handleMsg m => isStartMsg m
  | _ => false

/-- Outcome of the body of one _stream_background iteration: it either
completes, or some exception is raised inside it (socketClosed tags
whether the exception came from the telephony socket being closed; the
except clause of the source does not distinguish). -/
inductive IterOutcome
  | ok
  | raised (socketClosed : Bool)
deriving DecidableEq

/-- Whether an iteration outcome is a completed iteration. -/
def iterOk : IterOutcome → Bool
  | .ok => true
  | .raised _ => false

/-- The _stream_background exception policy over a schedule of
iteration outcomes: a completed iteration runs and the loop continues;
an iteration that raises runs, logs once, and the loop breaks, so no
later iteration of the schedule runs. Returns (iterations run, errors
logged). -/
def stream_background_run : List IterOutcome → Nat × Nat
  | [] => (0, 0)
  | IterOutcome.ok :: rest =>
    let r := stream_background_run rest
    (r.1 + 1, r.2)
  | IterOutcome.raised _ :: _ => (1, 1)

/-- The 20ms frame period, in milliseconds. -/
def frame_period_ms : Rat := 20

/-- The pause taken at the end of one _stream_background iteration, in
milliseconds: the source awaits asyncio.sleep(0.02), a constant that
does not depend on the processing time already spent. -/
def pacer_sleep_ms (_processing_ms : Rat) : Rat := 20

/-- Wall-clock time consumed by n mixer iterations when each iteration
spends processing_ms of processing before its sleep. -/
def pacer_elapsed_ms (n : Nat) (processing_ms : Rat) : Rat :=
  n * (processing_ms + pacer_sleep_ms processing_ms)

/-- State of the bidirectional.py media-stream session that the
interruption protocol reads and writes. -/
structure BidiState where
  streamSid : Option String
  latestMediaTimestamp : Int
  lastAssistantItem : Option String
  markQueue : List String
  responseStart : Option Int

/-- Messages emitted by handle_speech_started_event: the truncate
event sent to the backend socket and the clear event sent to the
telephony socket. -/
inductive BidiEvent
  | truncateItem (itemId : String) (contentIndex : Nat) (audioEndMs : Int)
  | clearEvent (sid : Option String)
deriving DecidableEq

/-- bidirectional.py handle_speech_started_event: when at least one
playback marker is outstanding and an utterance-start timestamp is
recorded, compute the elapsed time as the plain difference of the two
timestamps, send a truncate event carrying it when an assistant item is
known, send one clear event, and reset the bookkeeping. -/
def handle_speech_started_event (st : BidiState) : BidiState × List BidiEvent :=
  if st.markQueue ≠ [] ∧ st.responseStart ≠ none then
    let elapsed := st.latestMediaTimestamp - st.responseStart.getD 0
    let outs :=
      (match st.lastAssistantItem with
       | some item => [BidiEvent.truncateItem item 0 elapsed]
       | none => []) ++ [BidiEvent.clearEvent st.streamSid]
    ({ st with markQueue := [], lastAssistantItem := none, responseStart := none }, outs)
  else (st, [])

lemma stepOp_queue_empty (s : AudioIf) (op : Op) (h : s.aiAudioQueue = []) :
    (stepOp s op).aiAudioQueue = [] := by
  cases op with
  | loadBackgroundNoise noise => simpa [stepOp] using h
  | startBackgroundStream => simpa [stepOp] using h
  | handleMsg m =>
    cases m with
    | start sid cid params => simpa [stepOp, handleTwilioMessage] using h
    | media p =>
      by_cases hc : s.inputCallback ∧ s.running <;>
        simp [stepOp, handleTwilioMessage, hc, h]
    | stop => simpa [stepOp, handleTwilioMessage] using h
    | other => simpa [stepOp, handleTwilioMessage] using h
  | startInput => simpa [stepOp] using h
  | stopInterface => simpa [stepOp] using h
  | interrupt =>
    cases hs : s.streamSid with
    | none => simp [stepOp, sendClearMessage, hs, h]
    | some sid =>
      by_cases hw : s.wsConnected <;> simp [stepOp, sendClearMessage, hs, hw, h]
  | output audio =>
    cases hs : s.streamSid with
    | none => simp [stepOp, sendAudioChunk, hs, h]
    | some sid =>
      by_cases hw : s.wsConnected <;> simp [stepOp, sendAudioChunk, hs, hw, h]
  | mixerStep =>
    by_cases hc : s.running ∧ s.streamSid ≠ none <;>
      simp [stepOp, mixerIterate, hc, getAiChunk, h]

lemma runOps_queue_empty (ops : List Op) :
    ∀ s : AudioIf, s.aiAudioQueue = [] → (runOps s ops).aiAudioQueue = [] := by
  induction ops with
  | nil => intro s h; exact h
  | cons op rest ih => intro s h; exact ih (stepOp s op) (stepOp_queue_empty s op h)

/-- CLAIM C1 (amended). The interruption entry point sends exactly one
clear control event to the telephony socket (given a set streamId and a
connected socket) and leaves every other field, in particular the
Pending-Audio Queue, untouched; separately, the Pending-Audio Queue is
empty in every reachable state, because no operation of the interface
ever enqueues onto it. -/
theorem interrupt_sends_one_clear (s : AudioIf) (sid : String)
    (hsid : s.streamSid = some sid) (hw : s.wsConnected = true)
    (ws : Bool) (ops : List Op) :
    stepOp s Op.interrupt = { s with sends := s.sends ++ [OutMsg.clear sid] } ∧
    (runOps (initState ws) ops).aiAudioQueue = [] := by
  constructor
  · simp [stepOp, sendClearMessage, hsid, hw]
  · exact runOps_queue_empty ops (initState ws) rfl

/-- Witness for interrupt_sends_one_clear at a concrete mid-call state
and a concrete operation trace. -/
theorem interrupt_sends_one_clear_witness :
    stepOp { (initState true) with streamSid := some "S1", running := true }
        Op.interrupt
      = { (initState true) with streamSid := some "S1", running := true, sends := [OutMsg.clear "S1"] } ∧
    (runOps (initState true)
        [Op.handleMsg (TwilioMessage.start "S1" "C1" []), Op.startInput,
         Op.mixerStep, Op.interrupt]).aiAudioQueue = [] := by
  have h := interrupt_sends_one_clear
    { (initState true) with streamSid := some "S1", running := true } "S1" rfl rfl
    true
    [Op.handleMsg (TwilioMessage.start "S1" "C1" []), Op.startInput,
     Op.mixerStep, Op.interrupt]
  exact h

/-- CLAIM C1, counterexample to the claim as stated: on a state whose
Pending-Audio Queue holds a chunk, the interruption entry point sends
its clear event but does not empty the queue. -/
theorem interrupt_does_not_drain_queue :
    (stepOp { (initState true) with streamSid := some "S1", running := true, aiAudioQueue := [[1, 2]] } Op.interrupt).aiAudioQueue = [[1, 2]] ∧
    ([[1, 2]] : List (List Nat)) ≠ [] ∧
    (stepOp { (initState true) with streamSid := some "S1", running := true, aiAudioQueue := [[1, 2]] } Op.interrupt).sends = [OutMsg.clear "S1"] := by
  refine ⟨rfl, by simp, rfl⟩

/-- CLAIM C2 (amended). The _stream_background failure policy: every
completed iteration lets the loop continue, but the first iteration that
raises any exception logs it once and terminates the loop, so the later
iterations of the schedule never run; termination is not limited to
telephony-socket-closed errors. -/
theorem stream_background_stops_at_first_raise (evs : List IterOutcome) :
    stream_background_run evs
      = ((evs.takeWhile iterOk).length + (if evs.all iterOk then 0 else 1),
          if evs.all iterOk then 0 else 1) := by
  induction evs with
  | nil => rfl
  | cons e rest ih =>
    cases e with
    | ok =>
      by_cases hall : rest.all iterOk = true <;>
        simp [stream_background_run, ih, List.takeWhile_cons, iterOk, hall,
          Nat.add_comm, Nat.add_assoc, Nat.add_left_comm]
    | raised b => simp [stream_background_run, iterOk, List.takeWhile_cons]

/-- CLAIM C2, counterexample to the claim as stated: a schedule of two
iterations in which the first raises an exception that is not a
socket-closed condition runs only one iteration, not two, so the loop
does not proceed to the next iteration. -/
theorem stream_background_break_counterexample :
    (stream_background_run [IterOutcome.raised false, IterOutcome.ok]).1 = 1 ∧
    (stream_background_run [IterOutcome.raised false, IterOutcome.ok]).1 ≠ 2 := by
  decide

/-- CLAIM C3 (amended). During the interruption protocol of
bidirectional.py, the elapsed playback time sent to the backend truncate
operation is the plain difference of the latest telephony media
timestamp and the recorded utterance-start timestamp, with no clamping:
a negative difference is propagated as a negative audio_end_ms. -/
theorem speech_started_elapsed_unclamped (st : BidiState) (r : Int) (item : String)
    (hm : st.markQueue ≠ []) (hr : st.responseStart = some r)
    (hi : st.lastAssistantItem = some item) :
    (handle_speech_started_event st).2
      = [BidiEvent.truncateItem item 0 (st.latestMediaTimestamp - r),
          BidiEvent.clearEvent st.streamSid] := by
  simp [handle_speech_started_event, hm, hr, hi]

/-- Witness for speech_started_elapsed_unclamped at a state whose
difference is the negative value -100. -/
theorem speech_started_elapsed_unclamped_witness :
    (handle_speech_started_event
        { streamSid := some "S1", latestMediaTimestamp := 0,
          lastAssistantItem := some "item1", markQueue := ["responsePart"],
          responseStart := some 100 }).2
      = [BidiEvent.truncateItem "item1" 0 (0 - 100),
          BidiEvent.clearEvent (some "S1")] := by
  exact speech_started_elapsed_unclamped _ 100 "item1" (by simp) rfl rfl

/-- CLAIM C3, counterexample to the claim as stated: with utterance
start recorded at 100ms and the latest acknowledged timestamp 0ms, the
truncate event carries audio_end_ms -100, a negative value that was not
clamped to zero. -/
theorem speech_started_negative_sent :
    (handle_speech_started_event
        { streamSid := some "S1", latestMediaTimestamp := 0,
          lastAssistantItem := some "item1", markQueue := ["responsePart"],
          responseStart := some 100 }).2
      = [BidiEvent.truncateItem "item1" 0 (-100),
          BidiEvent.clearEvent (some "S1")] ∧
    (-100 : Int) ≠ 0 ∧ (-100 : Int) < 0 := by
  refine ⟨by decide, by decide, by decide⟩

/-- CLAIM C9 (amended). The pacer sleeps a fixed 20ms every iteration,
independent of the processing time already spent, so n iterations with
processing time p consume n * 20ms + n * p of wall-clock time, which
stays within one frame period of n * 20ms exactly when the accumulated
processing time n * p is at most one frame period. -/
theorem pacer_sleep_constant (n : Nat) (p : Rat) :
    pacer_sleep_ms p = frame_period_ms ∧
    pacer_elapsed_ms n p = n * frame_period_ms + n * p ∧
    (pacer_elapsed_ms n p - n * frame_period_ms ≤ frame_period_ms ↔
      (n : Rat) * p ≤ frame_period_ms) := by
  have hdiff : pacer_elapsed_ms n p - n * frame_period_ms = n * p := by
    unfold pacer_elapsed_ms pacer_sleep_ms frame_period_ms; ring
  refine ⟨rfl, ?_, ?_⟩
  · unfold pacer_elapsed_ms pacer_sleep_ms frame_period_ms; ring
  · rw [hdiff]

/-- CLAIM C9, counterexample to the claim as stated: with 5ms of
processing the sleep is not the 15ms remainder of the frame period, and
with 20ms of processing per iteration two frame periods of the loop
drift a full 40ms beyond 2 * 20ms, more than one frame period. -/
theorem pacer_sleep_not_remainder :
    pacer_sleep_ms 5 ≠ frame_period_ms - 5 ∧
    frame_period_ms < pacer_elapsed_ms 2 20 - 2 * frame_period_ms := by
  constructor <;> norm_num [pacer_sleep_ms, frame_period_ms, pacer_elapsed_ms]

lemma sendAudioChunk_unset (s : AudioIf) (a : List Nat) (h : s.streamSid = none) :
    sendAudioChunk s a = s := by
  simp [sendAudioChunk, h]

lemma sendClearMessage_unset (s : AudioIf) (h : s.streamSid = none) :
    sendClearMessage s = s := by
  simp [sendClearMessage, h]

lemma mixerIterate_unset (s : AudioIf) (h : s.streamSid = none) :
    mixerIterate s = s := by
  simp [mixerIterate, h]

lemma noStart_step (s : AudioIf) (op : Op) (hop : opIsStart op = false)
    (h1 : s.streamSid = none) (h2 : s.sends = []) (h3 : s.mixerFrames = []) :
    (stepOp s op).streamSid = none ∧ (stepOp s op).sends = [] ∧
      (stepOp s op).mixerFrames = [] := by
  cases op with
  | loadBackgroundNoise noise => exact ⟨h1, h2, h3⟩
  | startBackgroundStream => exact ⟨h1, h2, h3⟩
  | handleMsg m =>
    cases m with
    | start sid cid params => simp [opIsStart, isStartMsg] at hop
    | media p =>
      by_cases hc : s.inputCallback ∧ s.running <;>
        simp [stepOp, handleTwilioMessage, hc, h1, h2, h3]
    | stop => exact ⟨h1, h2, h3⟩
    | other => exact ⟨h1, h2, h3⟩
  | startInput => exact ⟨h1, h2, h3⟩
  | stopInterface => exact ⟨rfl, h2, h3⟩
  | interrupt => rw [show stepOp s Op.interrupt = sendClearMessage s from rfl,
      sendClearMessage_unset s h1]; exact ⟨h1, h2, h3⟩
  | output audio => rw [show stepOp s (Op.output audio) = sendAudioChunk s audio from rfl,
      sendAudioChunk_unset s audio h1]; exact ⟨h1, h2, h3⟩
  | mixerStep => rw [show stepOp s Op.mixerStep = mixerIterate s from rfl,
      mixerIterate_unset s h1]; exact ⟨h1, h2, h3⟩

lemma runOps_noStart (ops : List Op) :
    ∀ s : AudioIf, (∀ op ∈ ops, opIsStart op = false) →
      s.streamSid = none → s.sends = [] → s.mixerFrames = [] →
      (runOps s ops).streamSid = none ∧ (runOps s ops).sends = [] ∧
        (runOps s ops).mixerFrames = [] := by
  induction ops with
  | nil => intro s _ h1 h2 h3; exact ⟨h1, h2, h3⟩
  | cons op rest ih =>
    intro s hall h1 h2 h3
    have hop := hall op (List.mem_cons_self _ _)
    have hrest : ∀ o ∈ rest, opIsStart o = false :=
      fun o ho => hall o (List.mem_cons_of_mem _ ho)
    obtain ⟨g1, g2, g3⟩ := noStart_step s op hop h1 h2 h3
    exact ih (stepOp s op) hrest g1 g2 g3

/-- CLAIM C4. Before the telephony start event sets the streamId, the
interface transmits nothing: over any operation sequence free of start
events the socket history stays empty and no mixer frame is produced,
and both outbound-send operations, invoked on any state whose streamId
is unset, return the state unchanged without transmitting. -/
theorem no_output_before_start (ws : Bool) (ops : List Op)
    (hops : ∀ op ∈ ops, opIsStart op = false)
    (s : AudioIf) (a : List Nat) (hs : s.streamSid = none) :
    (runOps (initState ws) ops).sends = [] ∧
    (runOps (initState ws) ops).mixerFrames = [] ∧
    sendAudioChunk s a = s ∧ sendClearMessage s = s := by
  obtain ⟨_, g2, g3⟩ := runOps_noStart ops (initState ws) hops rfl rfl rfl
  exact ⟨g2, g3, sendAudioChunk_unset s a hs, sendClearMessage_unset s hs⟩

/-- Witness for no_output_before_start: a concrete start-free trace
that exercises the mixer, the interruption path and the output path,
and a concrete unset-streamId state. -/
theorem no_output_before_start_witness :
    (runOps (initState true)
        [Op.startInput, Op.startBackgroundStream, Op.mixerStep, Op.interrupt,
         Op.output [1, 2], Op.handleMsg (TwilioMessage.media ['/', 'w', '=', '=']),
         Op.handleMsg TwilioMessage.stop]).sends = [] ∧
    (runOps (initState true)
        [Op.startInput, Op.startBackgroundStream, Op.mixerStep, Op.interrupt,
         Op.output [1, 2], Op.handleMsg (TwilioMessage.media ['/', 'w', '=', '=']),
         Op.handleMsg TwilioMessage.stop]).mixerFrames = [] ∧
    sendAudioChunk (initState true) [0] = initState true ∧
    sendClearMessage (initState true) = initState true := by
  exact no_output_before_start true _ (by decide) (initState true) [0] rfl

lemma handleMsg_noStart_inactive (s : AudioIf) (m : TwilioMessage)
    (hm : isStartMsg m = false) (hr : s.running = false) :
    (handleTwilioMessage s m).running = false ∧
      (handleTwilioMessage s m).forwards = s.forwards ∧
      (handleTwilioMessage s m).streamSid = s.streamSid ∧
      (handleTwilioMessage s m).sends = s.sends := by
  cases m with
  | start sid cid params => simp [isStartMsg] at hm
  | media p => simp [handleTwilioMessage, hr]
  | stop => simp [handleTwilioMessage, hr]
  | other => exact ⟨hr, rfl, rfl, rfl⟩

lemma runMsgs_noStart_inactive (ms : List TwilioMessage) :
    ∀ s : AudioIf, (∀ m ∈ ms, isStartMsg m = false) → s.running = false →
      (runMsgs s ms).running = false ∧ (runMsgs s ms).forwards = s.forwards ∧
        (runMsgs s ms).streamSid = s.streamSid ∧ (runMsgs s ms).sends = s.sends := by
  induction ms with
  | nil => intro s _ hr; exact ⟨hr, rfl, rfl, rfl⟩
  | cons m rest ih =>
    intro s hall hr
    have hm := hall m (List.mem_cons_self _ _)
    have hrest : ∀ x ∈ rest, isStartMsg x = false :=
      fun x hx => hall x (List.mem_cons_of_mem _ hx)
    obtain ⟨g1, g2, g3, g4⟩ := handleMsg_noStart_inactive s m hm hr
    obtain ⟨k1, k2, k3, k4⟩ := ih (handleTwilioMessage s m) hrest g1
    exact ⟨k1, k2.trans g2, k3.trans g3, k4.trans g4⟩

/-- CLAIM C5. A media event is decoded and forwarded to the registered
inbound consumer exactly when an input callback is registered and the
session is running; from the initial state, a message sequence with no
start event forwards nothing, and after a stop event no further media
is forwarded as long as no start event intervenes. -/
theorem media_forward_iff_active (s : AudioIf) (p : List Char) (ws : Bool)
    (ms : List TwilioMessage) (hms : ∀ m ∈ ms, isStartMsg m = false) :
    ((handleTwilioMessage s (TwilioMessage.media p)).forwards
        = s.forwards ++ (if s.inputCallback ∧ s.running then [b64decode p] else [])) ∧
    (runMsgs (initState ws) ms).forwards = [] ∧
    (runMsgs (handleTwilioMessage s TwilioMessage.stop) ms).forwards = s.forwards := by
  refine ⟨?_, ?_, ?_⟩
  · by_cases hc : s.inputCallback ∧ s.running <;> simp [handleTwilioMessage, hc]
  · exact (runMsgs_noStart_inactive ms (initState ws) hms rfl).2.1
  · have hstop : (handleTwilioMessage s TwilioMessage.stop).running = false := rfl
    have h := (runMsgs_noStart_inactive ms (handleTwilioMessage s TwilioMessage.stop)
      hms hstop).2.1
    rw [h]; rfl

/-- Witness for media_forward_iff_active: a registered, running state
forwards the decoded payload; the start-free sequence below, which
carries media both before any start and after a stop, forwards
nothing. -/
theorem media_forward_iff_active_witness :
    ((handleTwilioMessage { (initState true) with inputCallback := true, running := true } (TwilioMessage.media ['/', 'w', '=', '='])).forwards
        = [] ++ (if (true = true) ∧ (true = true) then [b64decode ['/', 'w', '=', '=']] else [])) ∧
    (runMsgs (initState true)
        [TwilioMessage.media ['/', 'w', '=', '='], TwilioMessage.stop,
         TwilioMessage.media ['A', 'A', 'A', 'A']]).forwards = [] ∧
    (runMsgs (handleTwilioMessage { (initState true) with inputCallback := true, running := true } TwilioMessage.stop)
        [TwilioMessage.media ['A', 'A', 'A', 'A']]).forwards = [] := by
  exact media_forward_iff_active
    { (initState true) with inputCallback := true, running := true }
    ['/', 'w', '=', '='] true _ (by decide)

/-- CLAIM C8 (amended). Over any telephony message sequence containing
no start event — in particular one beginning with a stop — the session
never becomes active: running stays false, the streamId stays unset (so
it is never eligible to transmit, and the handler sends nothing), and no
inbound media is forwarded. -/
theorem stop_before_start_stays_inactive (ws : Bool) (ms : List TwilioMessage)
    (hms : ∀ m ∈ ms, isStartMsg m = false) :
    (runMsgs (initState ws) ms).running = false ∧
    (runMsgs (initState ws) ms).streamSid = none ∧
    (runMsgs (initState ws) ms).forwards = [] ∧
    (runMsgs (initState ws) ms).sends = [] := by
  obtain ⟨g1, g2, g3, g4⟩ := runMsgs_noStart_inactive ms (initState ws) hms rfl
  exact ⟨g1, g3, g2, g4⟩

/-- Witness for stop_before_start_stays_inactive on the concrete
sequence stop, media, stop. -/
theorem stop_before_start_stays_inactive_witness :
    (runMsgs (initState true)
        [TwilioMessage.stop, TwilioMessage.media ['A', 'A', 'A', 'A'],
         TwilioMessage.stop]).running = false ∧
    (runMsgs (initState true)
        [TwilioMessage.stop, TwilioMessage.media ['A', 'A', 'A', 'A'],
         TwilioMessage.stop]).streamSid = none ∧
    (runMsgs (initState true)
        [TwilioMessage.stop, TwilioMessage.media ['A', 'A', 'A', 'A'],
         TwilioMessage.stop]).forwards = [] ∧
    (runMsgs (initState true)
        [TwilioMessage.stop, TwilioMessage.media ['A', 'A', 'A', 'A'],
         TwilioMessage.stop]).sends = [] := by
  exact stop_before_start_stays_inactive true _ (by decide)

/-- CLAIM C8, counterexample to the claim as stated: a sequence in
which a stop event is processed before any start event, but a start
event arrives later, does enter the active state — the handler flips
running back on — so such a session does not proceed directly to closed.
-/
theorem stop_then_start_activates :
    (runMsgs (initState true)
        [TwilioMessage.stop, TwilioMessage.start "S1" "C1" []]).running = true ∧
    (runMsgs (initState true)
        [TwilioMessage.stop, TwilioMessage.start "S1" "C1" []]).streamSid
      = some "S1" := by
  exact ⟨rfl, rfl⟩

lemma mixerIterate_empty_queue (s : AudioIf) (hq : s.aiAudioQueue = [])
    (hr : s.running = true) (hsid : s.streamSid ≠ none) :
    (mixerIterate s).mixerFrames = s.mixerFrames ++ [bgOnlyFrame s] := by
  by_cases hn : s.backgroundNoise ≠ [] <;>
    simp [mixerIterate, getAiChunk, bgOnlyFrame, hq, hr, hsid, hn]

/-- CLAIM C10. No operation of the interface ever enqueues onto the
Pending-Audio Queue: from the initial state the queue is empty after
every operation sequence; the non-blocking poll of an empty queue yields
none; consequently every frame the mixer body builds is exactly the
attenuated background chunk (or pure silence), never a mix with agent
speech; and the output operation bypasses the queue, writing the encoded
chunk directly to the socket. -/
theorem queue_always_empty_background_only (ws : Bool) (ops : List Op)
    (s : AudioIf) (sid : String) (a : List Nat)
    (hq : s.aiAudioQueue = []) (hr : s.running = true)
    (hsid : s.streamSid = some sid) (hw : s.wsConnected = true) :
    (runOps (initState ws) ops).aiAudioQueue = [] ∧
    (getAiChunk s).1 = none ∧
    (mixerIterate s).mixerFrames = s.mixerFrames ++ [bgOnlyFrame s] ∧
    ((sendAudioChunk s a).aiAudioQueue = s.aiAudioQueue ∧
      (sendAudioChunk s a).sends = s.sends ++ [OutMsg.media sid (b64encode a)]) := by
  refine ⟨runOps_queue_empty ops (initState ws) rfl, ?_, ?_, ?_, ?_⟩
  · simp [getAiChunk, hq]
  · exact mixerIterate_empty_queue s hq hr (by simp [hsid])
  · simp [sendAudioChunk, hsid, hw]
  · simp [sendAudioChunk, hsid, hw]

/-- Witness for queue_always_empty_background_only at a concrete active
state with no background bed loaded and a concrete trace through start,
output and two mixer iterations. -/
theorem queue_always_empty_background_only_witness :
    (runOps (initState true)
        [Op.handleMsg (TwilioMessage.start "S1" "C1" []), Op.startInput,
         Op.output [1, 2, 3], Op.mixerStep, Op.mixerStep]).aiAudioQueue = [] ∧
    (getAiChunk { (initState true) with streamSid := some "S1", running := true }).1 = none ∧
    (mixerIterate { (initState true) with streamSid := some "S1", running := true }).mixerFrames
      = [] ++ [bgOnlyFrame { (initState true) with streamSid := some "S1", running := true }] ∧
    ((sendAudioChunk { (initState true) with streamSid := some "S1", running := true } [7]).aiAudioQueue
        = ([] : List (List Nat)) ∧
      (sendAudioChunk { (initState true) with streamSid := some "S1", running := true } [7]).sends
        = [] ++ [OutMsg.media "S1" (b64encode [7])]) := by
  exact queue_always_empty_background_only true _
    { (initState true) with streamSid := some "S1", running := true }
    "S1" [7] rfl rfl rfl rfl

lemma addSatSample_comm (a b : Int) : addSatSample a b = addSatSample b a := by
  unfold addSatSample; rw [Int.add_comm]

lemma zipWith_addSat_comm (xs : List Int) :
    ∀ ys, List.zipWith addSatSample xs ys = List.zipWith addSatSample ys xs := by
  induction xs with
  | nil => intro ys; cases ys <;> rfl
  | cons x xt ih =>
    intro ys
    cases ys with
    | nil => rfl
    | cons y yt => simp [List.zipWith, addSatSample_comm x y, ih yt]

lemma addSatSample_lower (a b : Int) : -32768 ≤ addSatSample a b :=
  le_max_left _ _

lemma addSatSample_upper (a b : Int) : addSatSample a b ≤ 32767 := by
  unfold addSatSample
  exact max_le (by norm_num) (min_le_left _ _)

lemma mem_zipWith_addSat_bounds (xs : List Int) :
    ∀ ys (s : Int), s ∈ List.zipWith addSatSample xs ys →
      -32768 ≤ s ∧ s ≤ 32767 := by
  induction xs with
  | nil => intro ys s h; simp at h
  | cons x xt ih =>
    intro ys s h
    cases ys with
    | nil => simp at h
    | cons y yt =>
      simp only [List.zipWith, List.mem_cons] at h
      rcases h with h | h
      · subst h; exact ⟨addSatSample_lower x y, addSatSample_upper x y⟩
      · exact ih yt s h

/-- CLAIM C6. Mixing is commutative on equal-length mu-law chunks, and
the sample-wise addition underlying it saturates at the signed 16-bit
extremes: every intermediate mixed sample lies in [-32768, 32767], so no
output sample ever comes from wraparound overflow. -/
theorem mix_chunks_comm_saturating (a b : List Nat) (h : a.length = b.length) :
    mix_chunks a b = mix_chunks b a ∧
    ∀ s ∈ audioop_add (ulaw2lin a) (ulaw2lin b), -32768 ≤ s ∧ s ≤ 32767 := by
  constructor
  · unfold mix_chunks
    rw [if_pos h, if_pos h.symm]
    unfold audioop_add
    rw [zipWith_addSat_comm]
  · intro s hs
    exact mem_zipWith_addSat_bounds _ _ s hs

/-- Witness for mix_chunks_comm_saturating on two concrete equal-length
chunks, plus the two-maximum-amplitude check: the mu-law byte 0x80
decodes to the peak sample 32124, and mixing it with itself clamps the
raw sum 64248 to 32767 instead of wrapping. -/
theorem mix_chunks_comm_saturating_witness :
    (mix_chunks [128, 255] [0, 128] = mix_chunks [0, 128] [128, 255] ∧
      ∀ s ∈ audioop_add (ulaw2lin [128, 255]) (ulaw2lin [0, 128]),
        -32768 ≤ s ∧ s ≤ 32767) ∧
    audioop_add (ulaw2lin [128, 128]) (ulaw2lin [128, 128]) = [32767, 32767] ∧
    ulaw2lin [128] = [32124] :=
  ⟨mix_chunks_comm_saturating [128, 255] [0, 128] rfl, by decide, by decide⟩

lemma cyclicTake_length (noise : List Nat) (pos n : Nat) :
    (cyclicTake noise pos n).length = n := by
  simp [cyclicTake]

lemma drop_take_eq_cyclicTake (noise : List Nat) (pos n : Nat)
    (h : pos + n ≤ noise.length) :
    (noise.drop pos).take n = cyclicTake noise pos n := by
  apply List.ext_getElem
  · rw [cyclicTake_length, List.length_take, List.length_drop]; omega
  · intro i h1 h2
    have hi : i < n := by
      rw [List.length_take, List.length_drop] at h1; omega
    have hlt : pos + i < noise.length := by omega
    rw [List.getElem_take, List.getElem_drop]
    simp only [cyclicTake, List.getElem_map, List.getElem_range]
    rw [Nat.mod_eq_of_lt hlt, List.getD_eq_getElem noise 0 hlt]

lemma cyclicTake_add (noise : List Nat) (pos k m : Nat) :
    cyclicTake noise pos (k + m)
      = cyclicTake noise pos k ++ cyclicTake noise (pos + k) m := by
  unfold cyclicTake
  rw [List.range_add, List.map_append, List.map_map]
  congr 1
  apply List.map_congr_left
  intro i _
  simp only [Function.comp_apply]
  rw [Nat.add_assoc]

lemma cyclicTake_shift_len (noise : List Nat) (pos n : Nat) :
    cyclicTake noise (noise.length + pos) n = cyclicTake noise pos n := by
  unfold cyclicTake
  apply List.map_congr_left
  intro i _
  congr 1
  rw [Nat.add_assoc, Nat.add_mod_left]

lemma getBackgroundChunk_spec_lt (noise : List Nat) :
    ∀ n pos, pos < noise.length →
      (getBackgroundChunk noise pos n).1 = cyclicTake noise pos n ∧
      (getBackgroundChunk noise pos n).2 ≤ noise.length ∧
      (getBackgroundChunk noise pos n).2 % noise.length
        = (pos + n) % noise.length := by
  intro n
  induction n using Nat.strong_induction_on with
  | _ n ih =>
    intro pos hpos
    by_cases h0 : n = 0
    · subst h0
      rw [getBackgroundChunk.eq_def]
      rw [dif_pos rfl]
      refine ⟨rfl, Nat.le_of_lt hpos, rfl⟩
    · by_cases h1 : pos + n ≤ noise.length
      · rw [getBackgroundChunk.eq_def]
        rw [dif_neg h0, dif_pos h1]
        exact ⟨drop_take_eq_cyclicTake noise pos n h1, h1, rfl⟩
      · have h2 : ¬ noise.length ≤ pos := by omega
        have hmlt : n - (noise.length - pos) < n := by omega
        obtain ⟨ih1, ih2, ih3⟩ := ih (n - (noise.length - pos)) hmlt 0 (by omega)
        rw [getBackgroundChunk.eq_def]
        rw [dif_neg h0, dif_neg h1, dif_neg h2]
        refine ⟨?_, ih2, ?_⟩
        · rw [ih1]
          have hdrop : noise.drop pos = cyclicTake noise pos (noise.length - pos) := by
            rw [← drop_take_eq_cyclicTake noise pos (noise.length - pos) (by omega),
              ← List.length_drop pos noise, List.take_length]
          have hshift : cyclicTake noise 0 (n - (noise.length - pos))
              = cyclicTake noise (pos + (noise.length - pos)) (n - (noise.length - pos)) := by
            have hfull : pos + (noise.length - pos) = noise.length := by omega
            rw [hfull]
            have hsh := cyclicTake_shift_len noise 0 (n - (noise.length - pos))
            rw [Nat.add_zero] at hsh
            exact hsh.symm
          rw [hdrop, hshift, ← cyclicTake_add]
          have harg : (noise.length - pos) + (n - (noise.length - pos)) = n := by omega
          rw [harg]
        · rw [ih3]
          have hview : pos + n = noise.length + (n - (noise.length - pos)) := by omega
          rw [hview, Nat.add_mod_left, Nat.zero_add]

/-- CLAIM C7. For a nonempty background bed and a cursor within bounds,
the background read returns exactly the requested number of bytes, equal
to the buffer read cyclically from the cursor, and the cursor after the
call never exceeds the buffer length and is congruent, modulo the buffer
length, to the starting cursor plus the requested length. -/
theorem background_chunk_cyclic (noise : List Nat) (pos n : Nat)
    (hne : noise ≠ []) (hpos : pos ≤ noise.length) :
    (getBackgroundChunk noise pos n).1 = cyclicTake noise pos n ∧
    (getBackgroundChunk noise pos n).1.length = n ∧
    (getBackgroundChunk noise pos n).2 ≤ noise.length ∧
    (getBackgroundChunk noise pos n).2 % noise.length
      = (pos + n) % noise.length := by
  have hlen : 0 < noise.length := List.length_pos.mpr hne
  rcases Nat.lt_or_ge pos noise.length with hlt | hge
  · obtain ⟨g1, g2, g3⟩ := getBackgroundChunk_spec_lt noise n pos hlt
    exact ⟨g1, by rw [g1, cyclicTake_length], g2, g3⟩
  · have heq : pos = noise.length := Nat.le_antisymm hpos hge
    subst heq
    by_cases h0 : n = 0
    · subst h0
      rw [getBackgroundChunk.eq_def]
      rw [dif_pos rfl]
      exact ⟨rfl, rfl, Nat.le_refl _, rfl⟩
    · obtain ⟨g1, g2, g3⟩ := getBackgroundChunk_spec_lt noise n 0 hlen
      have hsh := cyclicTake_shift_len noise 0 n
      rw [Nat.add_zero] at hsh
      rw [getBackgroundChunk.eq_def]
      rw [dif_neg h0, dif_neg (show ¬(noise.length + n ≤ noise.length) by omega),
        dif_pos (Nat.le_refl _), dif_neg (show ¬noise.length = 0 by omega)]
      refine ⟨?_, ?_, g2, ?_⟩
      · rw [g1]; exact hsh.symm
      · rw [g1, cyclicTake_length]
      · rw [g3, Nat.zero_add, Nat.add_mod_left]

/-- Witness for background_chunk_cyclic on a concrete three-byte buffer
with a wrapping four-byte read. -/
theorem background_chunk_cyclic_witness :
    (getBackgroundChunk [1, 2, 3] 2 4).1 = cyclicTake [1, 2, 3] 2 4 ∧
    (getBackgroundChunk [1, 2, 3] 2 4).1.length = 4 ∧
    (getBackgroundChunk [1, 2, 3] 2 4).2 ≤ 3 ∧
    (getBackgroundChunk [1, 2, 3] 2 4).2 % 3 = (2 + 4) % 3 := by
  have h := background_chunk_cyclic [1, 2, 3] 2 4 (by decide) (by decide)
  simpa using h
